import Mathlib

/-!
Shallow embedding of `src/method.rs` from the `http-types` repository:
the `Method` enum, its string conversions, safety predicate and
serde-style (de)serialization adapters, together with theorems checking
the specification's claims about them.

Strings are modelled as `List Char` (the character content of a Rust
`&str`); Rust `Result` is modelled as `Except`.
-/

namespace HttpTypes

/-- The nine HTTP request method variants (`enum Method`). -/
inductive Method where
  | Get
  | Head
  | Post
  | Put
  | Delete
  | Connect
  | Options
  | Trace
  | Patch
deriving DecidableEq, Repr

/-- Rust `char::to_ascii_uppercase`: ASCII letters `a`-`z` map to
`A`-`Z`; every other character is unchanged. -/
def asciiUpperChar (c : Char) : Char :=
  if 97 ≤ c.toNat ∧ c.toNat ≤ 122 then Char.ofNat (c.toNat - 32) else c

/-- Rust `char::to_ascii_lowercase`: ASCII letters `A`-`Z` map to
`a`-`z`; every other character is unchanged. -/
def asciiLowerChar (c : Char) : Char :=
  if 65 ≤ c.toNat ∧ c.toNat ≤ 90 then Char.ofNat (c.toNat + 32) else c

/-- Rust `str::to_ascii_uppercase`, character-wise. -/
def to_ascii_uppercase (s : List Char) : List Char :=
  s.map asciiUpperChar

/-- Modelled from the spec: `crate::Error` and `crate::bail!` are not part
of this fragment (only the call site in `from_str` is). The spec's §7
describes the single error kind as carrying text, so the error is
modelled as a value holding the text the `bail!` call site passes to it. -/
structure CrateError where
  message : List Char
deriving DecidableEq, Repr

namespace Method

/-- `impl Display for Method` (and hence `Method::to_string`): the
canonical uppercase literal of each variant. -/
def to_string : Method → List Char
  | .Get => "GET".data
  | .Head => "HEAD".data
  | .Post => "POST".data
  | .Put => "PUT".data
  | .Delete => "DELETE".data
  | .Connect => "CONNECT".data
  | .Options => "OPTIONS".data
  | .Trace => "TRACE".data
  | .Patch => "PATCH".data

/-- `Method::is_safe`: true exactly on `Get`, `Head`, `Options`, `Trace`. -/
def is_safe : Method → Bool
  | .Get | .Head | .Options | .Trace => true
  | _ => false

/-- `impl FromStr for Method`: upper-case the input (ASCII case folding)
and compare with the nine canonical literals; otherwise
`crate::bail!("Invalid HTTP method")`. -/
def from_str (s : List Char) : Except CrateError Method :=
  if to_ascii_uppercase s = "GET".data then Except.ok Method.Get
  else if to_ascii_uppercase s = "HEAD".data then Except.ok Method.Head
  else if to_ascii_uppercase s = "POST".data then Except.ok Method.Post
  else if to_ascii_uppercase s = "PUT".data then Except.ok Method.Put
  else if to_ascii_uppercase s = "DELETE".data then Except.ok Method.Delete
  else if to_ascii_uppercase s = "CONNECT".data then Except.ok Method.Connect
  else if to_ascii_uppercase s = "OPTIONS".data then Except.ok Method.Options
  else if to_ascii_uppercase s = "TRACE".data then Except.ok Method.Trace
  else if to_ascii_uppercase s = "PATCH".data then Except.ok Method.Patch
  else Except.error ⟨"Invalid HTTP method".data⟩

/-- `impl TryFrom<&str> for Method`: delegates to `from_str`. -/
def try_from (value : List Char) : Except CrateError Method :=
  from_str value

/-- `impl AsRef<str> for Method`: the variant-to-string table written
out a second time in the source. -/
def as_ref : Method → List Char
  | .Get => "GET".data
  | .Head => "HEAD".data
  | .Post => "POST".data
  | .Put => "PUT".data
  | .Delete => "DELETE".data
  | .Connect => "CONNECT".data
  | .Options => "OPTIONS".data
  | .Trace => "TRACE".data
  | .Patch => "PATCH".data

end Method

/-- `serde::de::Unexpected`, restricted to the one constructor the code
uses (`Unexpected::Str`). -/
inductive Unexpected where
  | str (s : List Char)
deriving DecidableEq, Repr

/-- A serde deserialization error as built by
`DeError::invalid_value(unexpected, &visitor)`: the unexpected input
together with the visitor's `expecting` text. -/
inductive DeError where
  | invalid_value (unexp : Unexpected) (expecting : List Char)
deriving DecidableEq, Repr

/-- The serialized form: `Serializer::serialize_str` produces a string
value (the only value shape this code emits or consumes). -/
inductive Value where
  | str (s : List Char)
deriving DecidableEq, Repr

/-- `MethodVisitor::visit_str`: delegate to `Method::from_str`,
translating failure into `invalid_value(Unexpected::Str(v), &self)`
with the visitor's expecting text `"a HTTP method &str"`. -/
def visit_str (v : List Char) : Except DeError Method :=
  match Method.from_str v with
  | .ok method => .ok method
  | .error _ => .error (.invalid_value (.str v) "a HTTP method &str".data)

/-- `impl Serialize for Method`: `serializer.serialize_str(&self.to_string())`. -/
def serialize (m : Method) : Value :=
  .str m.to_string

/-- `impl Deserialize for Method`:
`deserializer.deserialize_str(MethodVisitor)` — a string value is fed to
`MethodVisitor::visit_str`. -/
def deserialize (v : Value) : Except DeError Method :=
  match v with
  | .str s => visit_str s

/-- The nine canonical uppercase literals of §3 of the spec. -/
def canonicalLiterals : List (List Char) :=
  ["GET".data, "HEAD".data, "POST".data, "PUT".data, "DELETE".data,
   "CONNECT".data, "OPTIONS".data, "TRACE".data, "PATCH".data]

/-! ### Helper lemmas -/

/-- `Char.ofNat` and `Char.toNat` are inverse below the surrogate range. -/
theorem toNat_ofNat_valid (n : Nat) (h : n < 55296) : (Char.ofNat n).toNat = n := by
  unfold Char.ofNat
  rw [dif_pos (Or.inl h)]
  unfold Char.ofNatAux Char.toNat
  rfl

/-- ASCII upper-casing absorbs a prior ASCII lower-casing. -/
theorem asciiUpperChar_asciiLowerChar (c : Char) :
    asciiUpperChar (asciiLowerChar c) = asciiUpperChar c := by
  unfold asciiLowerChar asciiUpperChar
  by_cases h : 65 ≤ c.toNat ∧ c.toNat ≤ 90
  · rw [if_pos h]
    have hv : (Char.ofNat (c.toNat + 32)).toNat = c.toNat + 32 :=
      toNat_ofNat_valid _ (by omega)
    rw [hv]
    rw [if_pos (by omega : 97 ≤ c.toNat + 32 ∧ c.toNat + 32 ≤ 122)]
    rw [if_neg (by omega : ¬(97 ≤ c.toNat ∧ c.toNat ≤ 122))]
    rw [Nat.add_sub_cancel, Char.ofNat_toNat]
  · rw [if_neg h]

/-- A character outside the ASCII range is unchanged by ASCII upper-casing. -/
theorem asciiUpperChar_of_nonAscii (c : Char) (h : 128 ≤ c.toNat) :
    asciiUpperChar c = c := by
  unfold asciiUpperChar
  rw [if_neg (by omega)]

/-- Each canonical literal is a fixed point of ASCII upper-casing. -/
theorem upper_to_string (m : Method) :
    to_ascii_uppercase (Method.to_string m) = Method.to_string m := by
  cases m <;> rfl

/-- Every character of a canonical literal is ASCII. -/
theorem to_string_ascii (m : Method) : ∀ c ∈ Method.to_string m, c.toNat < 128 := by
  cases m <;> decide

/-- `from_str` only looks at the ASCII-upper-cased input. -/
theorem from_str_congr (v w : List Char)
    (h : to_ascii_uppercase v = to_ascii_uppercase w) :
    Method.from_str v = Method.from_str w := by
  unfold Method.from_str
  rw [h]

/-- `from_str` succeeds with variant `m` exactly when the upper-cased input
is the canonical literal of `m`. -/
theorem from_str_ok_iff (s : List Char) (m : Method) :
    Method.from_str s = Except.ok m ↔
      to_ascii_uppercase s = Method.to_string m := by
  unfold Method.from_str
  split_ifs with h1 h2 h3 h4 h5 h6 h7 h8 h9 <;> cases m <;>
    simp_all [Method.to_string]

/-- When the upper-cased input matches no literal, `from_str` fails with
the fixed message. -/
theorem from_str_eq_error (s : List Char)
    (h : ∀ m, to_ascii_uppercase s ≠ Method.to_string m) :
    Method.from_str s = Except.error ⟨"Invalid HTTP method".data⟩ := by
  have h1 := h Method.Get
  have h2 := h Method.Head
  have h3 := h Method.Post
  have h4 := h Method.Put
  have h5 := h Method.Delete
  have h6 := h Method.Connect
  have h7 := h Method.Options
  have h8 := h Method.Trace
  have h9 := h Method.Patch
  simp only [Method.to_string] at h1 h2 h3 h4 h5 h6 h7 h8 h9
  simp [Method.from_str, h1, h2, h3, h4, h5, h6, h7, h8, h9]

/-- Pointwise case variation is erased by ASCII upper-casing. -/
theorem upper_of_forall₂ (v l : List Char)
    (h : List.Forall₂ (fun cv cl => cv = cl ∨ cv = asciiLowerChar cl) v l) :
    to_ascii_uppercase v = to_ascii_uppercase l := by
  unfold to_ascii_uppercase
  induction h with
  | nil => rfl
  | cons hr _ ih =>
      simp only [List.map_cons, ih, List.cons.injEq, and_true]
      rcases hr with hr | hr
      · rw [hr]
      · rw [hr, asciiUpperChar_asciiLowerChar]

/-! ### Claim theorems -/

/-- C1: for every `Method` variant `m`, parsing the canonical string of
`m` succeeds and returns `m`; and for each of the nine canonical
uppercase literals `L`, `from_str L` succeeds with a variant whose
canonical string is exactly `L` (strict round-trip in both directions). -/
theorem method_string_roundtrip :
    (∀ m : Method, Method.from_str (Method.to_string m) = Except.ok m) ∧
    (∀ L, L ∈ canonicalLiterals →
      ∃ m, Method.from_str L = Except.ok m ∧ Method.to_string m = L) := by
  constructor
  · intro m
    cases m <;> rfl
  · intro L hL
    fin_cases hL
    · exact ⟨Method.Get, rfl, rfl⟩
    · exact ⟨Method.Head, rfl, rfl⟩
    · exact ⟨Method.Post, rfl, rfl⟩
    · exact ⟨Method.Put, rfl, rfl⟩
    · exact ⟨Method.Delete, rfl, rfl⟩
    · exact ⟨Method.Connect, rfl, rfl⟩
    · exact ⟨Method.Options, rfl, rfl⟩
    · exact ⟨Method.Trace, rfl, rfl⟩
    · exact ⟨Method.Patch, rfl, rfl⟩

/-- Witness for C1 at the literal `"GET"`. -/
theorem method_string_roundtrip_witness :
    ∃ m, Method.from_str ("GET".data) = Except.ok m ∧
      Method.to_string m = "GET".data :=
  method_string_roundtrip.2 ("GET".data) (by decide)

/-- C2: parsing is case-insensitive — for every variant `m` (with
canonical literal `L = to_string m`) and every string `v` equal to `L`
up to letter casing (each character of `v` is the corresponding
character of `L` or its ASCII lower-case form), `from_str v` succeeds
and returns the same variant as `from_str L`. -/
theorem from_str_case_insensitive (m : Method) (v : List Char)
    (h : List.Forall₂ (fun cv cl => cv = cl ∨ cv = asciiLowerChar cl) v
      (Method.to_string m)) :
    Method.from_str v = Method.from_str (Method.to_string m) ∧
    Method.from_str v = Except.ok m := by
  have hu : to_ascii_uppercase v = to_ascii_uppercase (Method.to_string m) :=
    upper_of_forall₂ _ _ h
  have hc : Method.from_str v = Method.from_str (Method.to_string m) :=
    from_str_congr _ _ hu
  refine ⟨hc, ?_⟩
  rw [hc, from_str_ok_iff, upper_to_string]

/-- Witness for C2 at the mixed-case input `"gEt"`. -/
theorem from_str_case_insensitive_witness :
    Method.from_str ("gEt".data) =
      Method.from_str (Method.to_string Method.Get) ∧
    Method.from_str ("gEt".data) = Except.ok Method.Get :=
  from_str_case_insensitive Method.Get ("gEt".data)
    (by
      show List.Forall₂ _ (['g', 'E', 't']) (['G', 'E', 'T'])
      exact .cons (Or.inr (by decide))
        (.cons (Or.inl rfl) (.cons (Or.inr (by decide)) .nil)))

/-- C3: parsing is total failure-or-success — for every input `s`, either
the ASCII-upper-cased `s` equals the canonical literal of some variant
`m` and `from_str s = ok m`, or it equals none of the nine literals and
`from_str s` returns the error (never a partial or default variant). -/
theorem from_str_total_cases (s : List Char) :
    (∃ m, to_ascii_uppercase s = Method.to_string m ∧
      Method.from_str s = Except.ok m) ∨
    ((∀ m, to_ascii_uppercase s ≠ Method.to_string m) ∧
      Method.from_str s = Except.error ⟨"Invalid HTTP method".data⟩) := by
  by_cases h : ∃ m, to_ascii_uppercase s = Method.to_string m
  · obtain ⟨m, hm⟩ := h
    exact Or.inl ⟨m, hm, (from_str_ok_iff s m).mpr hm⟩
  · push_neg at h
    exact Or.inr ⟨h, from_str_eq_error s h⟩

/-- C4: `is_safe` is total and returns `true` exactly on
`Get`, `Head`, `Options`, `Trace`, and `false` on each of
`Post`, `Put`, `Delete`, `Connect`, `Patch`. -/
theorem is_safe_iff_safe_set (m : Method) :
    (Method.is_safe m = true ↔
      (m = Method.Get ∨ m = Method.Head ∨ m = Method.Options ∨
        m = Method.Trace)) ∧
    (Method.is_safe m = false ↔
      (m = Method.Post ∨ m = Method.Put ∨ m = Method.Delete ∨
        m = Method.Connect ∨ m = Method.Patch)) := by
  cases m <;> simp [Method.is_safe]

/-- C5: the canonical-text operation is a total function whose value on
each variant is that variant's canonical uppercase literal (hence one of
the nine), and distinct variants produce distinct strings. -/
theorem to_string_canonical :
    (Method.to_string Method.Get = "GET".data ∧
      Method.to_string Method.Head = "HEAD".data ∧
      Method.to_string Method.Post = "POST".data ∧
      Method.to_string Method.Put = "PUT".data ∧
      Method.to_string Method.Delete = "DELETE".data ∧
      Method.to_string Method.Connect = "CONNECT".data ∧
      Method.to_string Method.Options = "OPTIONS".data ∧
      Method.to_string Method.Trace = "TRACE".data ∧
      Method.to_string Method.Patch = "PATCH".data) ∧
    (∀ m : Method, Method.to_string m ∈ canonicalLiterals) ∧
    (∀ m₁ m₂ : Method, Method.to_string m₁ = Method.to_string m₂ → m₁ = m₂) := by
  refine ⟨⟨rfl, rfl, rfl, rfl, rfl, rfl, rfl, rfl, rfl⟩, ?_, ?_⟩
  · intro m
    cases m <;> decide
  · intro m₁ m₂ h
    cases m₁ <;> cases m₂ <;> first | rfl | exact absurd h (by decide)

/-- Witness for C5's injectivity hypothesis at `Get`. -/
theorem to_string_canonical_witness : Method.Get = Method.Get :=
  to_string_canonical.2.2 Method.Get Method.Get rfl

/-- C6 counterexample: the rejected input is not recoverable from the
error `from_str` returns — two distinct rejected inputs (`"ABC"` and
`"XYZ"`) produce equal error values, so no recovery function exists. -/
theorem from_str_error_not_recoverable_cex :
    ¬ ∃ recover : CrateError → List Char,
        ∀ s e, Method.from_str s = Except.error e → recover e = s := by
  rintro ⟨r, hr⟩
  have h1 : r ⟨"Invalid HTTP method".data⟩ = "ABC".data :=
    hr ("ABC".data) ⟨"Invalid HTTP method".data⟩ rfl
  have h2 : r ⟨"Invalid HTTP method".data⟩ = "XYZ".data :=
    hr ("XYZ".data) ⟨"Invalid HTTP method".data⟩ rfl
  rw [h1] at h2
  exact absurd h2 (by decide)

/-- C6 amended: when `from_str` fails, the error it returns carries the
fixed message `"Invalid HTTP method"`, independent of the input; the
offending text is not part of the `from_str` error value. -/
theorem from_str_error_fixed_message (s : List Char) (e : CrateError)
    (h : Method.from_str s = Except.error e) :
    e = ⟨"Invalid HTTP method".data⟩ := by
  unfold Method.from_str at h
  split_ifs at h
  simp_all

/-- Witness for C6's amended theorem at the rejected input `"ABC"`. -/
theorem from_str_error_fixed_message_witness :
    (⟨"Invalid HTTP method".data⟩ : CrateError) =
      ⟨"Invalid HTTP method".data⟩ :=
  from_str_error_fixed_message ("ABC".data) ⟨"Invalid HTTP method".data⟩ rfl

/-- C7: serialization emits exactly the canonical `Display` string as a
string value; serializing then deserializing is the identity on every
variant; and deserializing the string value `"GET"` yields `Get`. -/
theorem serialize_delegates_to_display :
    (∀ m : Method, serialize m = Value.str (Method.to_string m)) ∧
    (∀ m : Method, deserialize (serialize m) = Except.ok m) ∧
    deserialize (Value.str ("GET".data)) = Except.ok Method.Get := by
  refine ⟨fun m => rfl, fun m => ?_, rfl⟩
  cases m <;> rfl

/-- C8: deserialization delegates to parsing — for every string `s`,
deserializing the string value `s` succeeds with exactly the variant
`from_str s` yields; when `from_str` fails, deserialization fails with
the structured invalid-value error reporting `s` itself. -/
theorem deserialize_delegates_to_from_str (s : List Char) :
    (∃ m, Method.from_str s = Except.ok m ∧
      deserialize (Value.str s) = Except.ok m) ∨
    ((∃ e, Method.from_str s = Except.error e) ∧
      deserialize (Value.str s) = Except.error
        (DeError.invalid_value (Unexpected.str s) ("a HTTP method &str".data))) := by
  have hd : deserialize (Value.str s) = visit_str s := rfl
  unfold visit_str at hd
  cases h : Method.from_str s with
  | ok m =>
      rw [h] at hd
      exact Or.inl ⟨m, rfl, hd⟩
  | error e =>
      rw [h] at hd
      exact Or.inr ⟨⟨e, rfl⟩, hd⟩

/-- C9: the `AsRef` table agrees with the `Display` table on every
variant, and `try_from` agrees with `from_str` on every input string. -/
theorem as_ref_and_try_from_agree :
    (∀ m : Method, Method.as_ref m = Method.to_string m) ∧
    (∀ s : List Char, Method.try_from s = Method.from_str s) :=
  ⟨fun m => by cases m <;> rfl, fun _ => rfl⟩

/-- C10: case folding in parsing is ASCII-only — `from_str s` succeeds
with `m` exactly when the ASCII-upper-casing of `s` is the canonical
literal of `m`, and any input containing a non-ASCII character is
rejected (e.g. `"poſt"`, whose `ſ` (U+017F) upper-cases to `S` under
full Unicode case mapping, is still rejected). -/
theorem from_str_ascii_case_folding :
    (∀ (s : List Char) (m : Method),
      Method.from_str s = Except.ok m ↔
        to_ascii_uppercase s = Method.to_string m) ∧
    (∀ (s : List Char) (c : Char), c ∈ s → 128 ≤ c.toNat →
      ∃ e, Method.from_str s = Except.error e) := by
  refine ⟨from_str_ok_iff, ?_⟩
  intro s c hc hge
  refine ⟨⟨"Invalid HTTP method".data⟩, from_str_eq_error s ?_⟩
  intro m heq
  have hmem : c ∈ to_ascii_uppercase s := by
    have := List.mem_map_of_mem asciiUpperChar hc
    rwa [asciiUpperChar_of_nonAscii c hge] at this
  rw [heq] at hmem
  exact absurd hge (by have := to_string_ascii m c hmem; omega)

/-- Witness for C10 at the non-ASCII input `"poſt"`. -/
theorem from_str_ascii_case_folding_witness :
    ∃ e, Method.from_str ("poſt".data) = Except.error e :=
  from_str_ascii_case_folding.2 ("poſt".data) 'ſ' (by decide) (by decide)

end HttpTypes
